import Mathlib

/-!
Verification of `app/service/tag.py` (tag mutation service with
optimistic-concurrency writes, history snapshots and audit entries).

The embedding models Python runtime values explicitly (dicts as
insertion-ordered association lists, tuple unpacking, truthiness), the
document store and the two recorders (which are external collaborators,
modelled from the spec), and the two decorators `add_to_history` and
`audit` exactly as written in the source.  Errors do not roll state back:
a method is a function `SvcState → Except Err PyVal × SvcState`, so a
store write that committed before an exception stays visible.
-/

set_option linter.unusedVariables false

/-- Python runtime values as used by `app/service/tag.py`: `None`, strings,
numbers (timestamps and version tokens are modelled as `Nat`), lists, tuples
and string-keyed dicts (insertion-ordered association lists). -/
inductive PyVal : Type where
  | vnone : PyVal
  | vstr : String → PyVal
  | vnat : Nat → PyVal
  | vlist : List PyVal → PyVal
  | vtuple : List PyVal → PyVal
  | vdict : List (String × PyVal) → PyVal

/-- A Python dict: insertion-ordered association list with unique keys
(uniqueness is maintained by `dset`). -/
abbrev Dict := List (String × PyVal)

/-- First-match association-list lookup (Python dict membership/lookup). -/
def alookup {α : Type} : List (String × α) → String → Option α
  | [], _ => none
  | (k1, v) :: rest, k => if k1 = k then some v else alookup rest k

/-- Python dict item assignment `d[k] = v`: replaces the value in place when
the key exists (keeping its position), otherwise appends the new pair. -/
def dset {α : Type} : List (String × α) → String → α → List (String × α)
  | [], k, v => [(k, v)]
  | (k1, v1) :: rest, k, v =>
    if k1 = k then (k, v) :: rest else (k1, v1) :: dset rest k v

/-- Python `d.get(k, dflt)`. -/
def dgetDefault (d : Dict) (k : String) (dflt : PyVal) : PyVal :=
  (alookup d k).getD dflt

/-- Failure kinds observable from the service: the three typed domain errors
of spec section 7 (NotFound, Conflict, ValidationFailure) plus the untyped
Python runtime errors the code can raise (KeyError carrying the missing key,
ValueError, TypeError, and AttributeError carrying the missing attribute
name, as raised by `.get`/`.append` on a value of the wrong type). -/
inductive Err : Type where
  | notFound : Err
  | conflict : Err
  | validationFailure : Err
  | keyError : String → Err
  | valueError : Err
  | typeError : Err
  | attributeError : String → Err
  deriving DecidableEq

/-- Python dict subscript `d[k]`: KeyError when the key is absent. -/
def dgetE (d : Dict) (k : String) : Except Err PyVal :=
  match alookup d k with
  | some v => .ok v
  | none => .error (.keyError k)

/-- Python `dict.__or__` as used by `tag["_source"] | payload`: keys of the
left dict keep their position with the right dict's value when it has the
key; keys only in the right dict are appended in its order. -/
def dunion (a b : Dict) : Dict :=
  (a.map (fun kv => (kv.1, (alookup b kv.1).getD kv.2))) ++
    b.filter (fun kv => (alookup a kv.1).isNone)

/-- Python truthiness, as tested by `if not tag["references"]`. -/
def truthy : PyVal → Bool
  | .vnone => false
  | .vstr s => !(s == "")
  | .vnat n => !(n == 0)
  | .vlist l => !l.isEmpty
  | .vtuple l => !l.isEmpty
  | .vdict d => !d.isEmpty

/-- Python `v != s` where `s` is a str: strings compare by value and a value
of any other built-in type is never equal to a str. -/
def pyNeStr (v : PyVal) (s : String) : Bool :=
  match v with
  | .vstr t => t != s
  | _ => true

/-- Python `str(v)` as interpolated by the f-strings of tag.py.  Atoms are
rendered exactly; the rendering of aggregates is abbreviated (no claim
depends on the rendering of an aggregate inside a message). -/
def pyStr : PyVal → String
  | .vnone => "None"
  | .vstr s => s
  | .vnat n => toString n
  | .vlist _ => "[...]"
  | .vtuple _ => "(...)"
  | .vdict _ => "\x7b...\x7d"

/-- Python `list(payload.keys())` as rendered inside an f-string. -/
def keysRepr (d : Dict) : String :=
  "[" ++ String.intercalate ", " (d.map (fun kv => "\x27" ++ kv.1 ++ "\x27")) ++ "]"

/-- One stored document: its body and its current version token. -/
structure StoredDoc : Type where
  body : Dict
  version : Nat

/-- Modelled from the spec: the Versioned Document Store collaborator
(sections 2 and 6); only its client `BaseService` is imported by tag.py and
its code is not under src.  Documents are keyed by id and carry a version
token, an opaque comparable value modelled as a `Nat` (section 9). -/
structure Store : Type where
  docs : List (String × StoredDoc)

/-- Modelled from the spec: the response envelope returned by store reads and
writes.  tag.py reads `_source` and `_version` from it, and the token is the
sequence-number/primary-term pair of section 9. -/
def respDict (sd : StoredDoc) : Dict :=
  [("_source", .vdict sd.body), ("_version", .vnat sd.version),
   ("_seq_no", .vnat sd.version), ("_primary_term", .vnat 1)]

/-- Modelled from the spec: `BaseService.get` / store `read(id)` (section 6):
returns the document envelope, fails with NotFound if the id is absent;
reads do not conflict-check the supplied sequence. -/
def svcGet (st : Store) (id : String) (_sequence : Nat) : Except Err Dict :=
  match alookup st.docs id with
  | none => .error .notFound
  | some sd => .ok (respDict sd)

/-- Modelled from the spec: `BaseService._index` / store `write` (section 6):
without a sequence it is an unconditional insert that fails if the id
already exists; with a sequence it is a conditional write that fails with
Conflict when the supplied token is stale. -/
def svcIndex (st : Store) (body : Dict) (docId : String) (sequence : Option Nat) :
    Except Err (Dict × Store) :=
  match sequence with
  | none =>
    match alookup st.docs docId with
    | some _ => .error .conflict
    | none =>
      let sd : StoredDoc := ⟨body, 1⟩
      .ok (respDict sd, ⟨dset st.docs docId sd⟩)
  | some seq =>
    match alookup st.docs docId with
    | none => .error .notFound
    | some sd =>
      if sd.version = seq then
        let sd2 : StoredDoc := ⟨body, sd.version + 1⟩
        .ok (respDict sd2, ⟨dset st.docs docId sd2⟩)
      else .error .conflict

/-- One recorder invocation: a history append (carrying the full response
document) or an audit append (carrying the completed audit mapping). -/
inductive Ev : Type where
  | hist : PyVal → Ev
  | audit : Dict → Ev

/-- Service-visible state: the document store, the combined recorder trace in
invocation order, the current clock reading (`datetime.utcnow()`), and the
next fresh id that `uuid4()` would mint. -/
structure SvcState : Type where
  store : Store
  trace : List Ev
  now : Nat
  freshId : String

/-- A service method: state in, result (or propagating error) and state out.
Errors do not undo earlier effects. -/
abbrev Meth := SvcState → Except Err PyVal × SvcState

/-- Modelled from the spec: History Recorder `add(document)` (section 6):
appends the document to the trail and succeeds. -/
def histAdd (v : PyVal) (s : SvcState) : Except Err Unit × SvcState :=
  (.ok (), { s with trace := s.trace ++ [.hist v] })

/-- Modelled from the spec: Audit Recorder `add(action, component, message,
**fields)` (section 6): appends the completed mapping and succeeds. -/
def auditAdd (d : Dict) (s : SvcState) : Except Err Unit × SvcState :=
  (.ok (), { s with trace := s.trace ++ [.audit d] })

/-- A History Recorder that fails with `e` without recording (failure
injection for the failure-semantics analysis of spec section 4.1). -/
def histAddFail (e : Err) (_v : PyVal) (s : SvcState) : Except Err Unit × SvcState :=
  (.error e, s)

/-- Number of history appends in a trace. -/
def histCount (tr : List Ev) : Nat :=
  (tr.filter (fun ev => match ev with | .hist _ => true | _ => false)).length

/-- Number of audit appends in a trace. -/
def auditCount (tr : List Ev) : Nat :=
  (tr.filter (fun ev => match ev with | .audit _ => true | _ => false)).length

/-- Python tuple unpacking `a, b = r`: succeeds on 2-element tuples and
lists; iterating a dict yields its keys, so only a 2-key dict unpacks (to
its two key strings) and any other dict raises ValueError; values that are
not iterable raise TypeError. -/
def unpack2 : PyVal → Except Err (PyVal × PyVal)
  | .vtuple [a, b] => .ok (a, b)
  | .vtuple _ => .error .valueError
  | .vlist [a, b] => .ok (a, b)
  | .vlist _ => .error .valueError
  | .vdict [(k1, _), (k2, _)] => .ok (.vstr k1, .vstr k2)
  | .vdict _ => .error .valueError
  | .vstr _ => .error .valueError
  | _ => .error .typeError

/-- The `add_to_history` decorator (tag.py line 14): awaits the wrapped
method, unpacks its result as `audit_args, ret`, appends `ret` to the
history trail, and returns the pair. -/
def add_to_history (hAdd : PyVal → SvcState → Except Err Unit × SvcState)
    (wrapped : Meth) : Meth := fun s =>
  match wrapped s with
  | (.error e, s1) => (.error e, s1)
  | (.ok r, s1) =>
    match unpack2 r with
    | .error e => (.error e, s1)
    | .ok (a, ret) =>
      match hAdd ret s1 with
      | (.error e, s2) => (.error e, s2)
      | (.ok _, s2) => (.ok (.vtuple [a, ret]), s2)

/-- The `audit` decorator (tag.py line 27): awaits the wrapped method,
unpacks its result as `audit_args, ret`, sets `audit_args["user"]` to the
acting identity, submits the mapping to the Audit Recorder, and returns
`ret` alone. -/
def audit (aAdd : Dict → SvcState → Except Err Unit × SvcState) (user : String)
    (wrapped : Meth) : Meth := fun s =>
  match wrapped s with
  | (.error e, s1) => (.error e, s1)
  | (.ok r, s1) =>
    match unpack2 r with
    | .error e => (.error e, s1)
    | .ok (a, ret) =>
      match a with
      | .vdict ad =>
        match aAdd (dset ad "user" (.vstr user)) s1 with
        | (.error e, s2) => (.error e, s2)
        | (.ok _, s2) => (.ok ret, s2)
      | _ => (.error .typeError, s1)

/-- `TagService._update_meta` (tag.py line 49): stamps `updated` with the
current time and `editor` with the acting identity, and clears `state`. -/
def TagService._update_meta (user : String) (now : Nat) (payload : Dict) : Dict :=
  dset (dset (dset payload "updated" (.vnat now)) "editor" (.vstr user)) "state" .vnone

/-- `TagService.create` body before decoration (tag.py line 87): stamps meta,
sets `author` and `created`, logs a line that reads `tag_data["name"]`,
inserts unconditionally under a fresh uuid, and returns the audit intent
together with the store response. -/
def TagService.create_raw (user : String) (tag_data : Dict) : Meth := fun s =>
  let new_id := s.freshId
  let td1 := TagService._update_meta user s.now tag_data
  let td2 := dset td1 "author" (.vstr user)
  match dgetE td2 "updated" with
  | .error e => (.error e, s)
  | .ok upd =>
    let td3 := dset td2 "created" upd
    match dgetE td3 "name" with
    | .error e => (.error e, s)
    | .ok _ =>
      match svcIndex s.store td3 new_id none with
      | .error e => (.error e, s)
      | .ok (new_tag, st2) =>
        match dgetE new_tag "_version" with
        | .error e => (.error e, { s with store := st2 })
        | .ok ver =>
          let audit_args : Dict :=
            [("action", .vstr "create"), ("component", .vstr "tag"),
             ("message", .vstr "Creating new Tag"), ("tag_id", .vstr new_id),
             ("version", ver)]
          (.ok (.vtuple [.vdict audit_args, .vdict new_tag]), { s with store := st2 })

/-- `TagService.create` as called (tag.py line 85): the raw body wrapped by
`add_to_history` then `audit`. -/
def TagService.create (user : String) (tag_data : Dict) : Meth :=
  audit auditAdd user (add_to_history histAdd (TagService.create_raw user tag_data))

/-- `TagService.create_reference` body before decoration (tag.py line 108):
reads the tag, defaults `references` to `[]`, appends the payload, writes
conditionally, and returns the audit intent with the response.  When the
stored `references` value is not a list, `.append` on it raises
AttributeError "append"; when `_source` is not a dict, `.get` on it raises
AttributeError "get". -/
def TagService.create_reference_raw (user : String) (tag_id : String)
    (sequence : Nat) (payload : Dict) : Meth := fun s =>
  match svcGet s.store tag_id sequence with
  | .error e => (.error e, s)
  | .ok resp =>
    match dgetE resp "_source" with
    | .error e => (.error e, s)
    | .ok src =>
      match src with
      | .vdict existing =>
        match dgetDefault existing "references" (.vlist []) with
        | .vlist refs =>
          let existing2 := dset existing "references" (.vlist (refs ++ [.vdict payload]))
          match svcIndex s.store existing2 tag_id (some sequence) with
          | .error e => (.error e, s)
          | .ok (ret, st2) =>
            match dgetE ret "_version" with
            | .error e => (.error e, { s with store := st2 })
            | .ok ver =>
              let audit_args : Dict :=
                [("action", .vstr "update"), ("component", .vstr "tag"),
                 ("message", .vstr ("Tag [" ++ tag_id ++ "] had " ++ keysRepr payload ++
                   " modified by [" ++ user ++ "]")),
                 ("tag_id", .vstr tag_id), ("version", ver),
                 ("subcomponent", .vstr "references"),
                 ("subcomponent_action", .vstr "create")]
              (.ok (.vtuple [.vdict audit_args, .vdict ret]), { s with store := st2 })
        | _ => (.error (.attributeError "append"), s)
      | _ => (.error (.attributeError "get"), s)

/-- `TagService.create_reference` as called (tag.py line 106). -/
def TagService.create_reference (user : String) (tag_id : String)
    (sequence : Nat) (payload : Dict) : Meth :=
  audit auditAdd user
    (add_to_history histAdd (TagService.create_reference_raw user tag_id sequence payload))

/-- `TagService.update` body before decoration (tag.py line 137): reads the
tag, shallow-merges the payload over `_source` with dict union, re-stamps
meta, writes conditionally, records its audit entry inline through the Audit
Recorder, and returns the store response dict alone (not a pair). -/
def TagService.update_raw (user : String) (tag_id : String) (sequence : Nat)
    (payload : Dict) : Meth := fun s =>
  match svcGet s.store tag_id sequence with
  | .error e => (.error e, s)
  | .ok resp =>
    match dgetE resp "_source" with
    | .error e => (.error e, s)
    | .ok src =>
      match src with
      | .vdict tagSrc =>
        let updated_tag := TagService._update_meta user s.now (dunion tagSrc payload)
        match svcIndex s.store updated_tag tag_id (some sequence) with
        | .error e => (.error e, s)
        | .ok (ret, st2) =>
          match dgetE ret "_version" with
          | .error e => (.error e, { s with store := st2 })
          | .ok ver =>
            let ad : Dict :=
              [("action", .vstr "update"), ("component", .vstr "tag"),
               ("message", .vstr ("Tag [" ++ tag_id ++ "] had " ++ keysRepr payload ++
                 " modified by [" ++ user ++ "]")),
               ("user", .vstr user), ("tag_id", .vstr tag_id), ("version", ver)]
            match auditAdd ad { s with store := st2 } with
            | (.error e, s2) => (.error e, s2)
            | (.ok _, s2) => (.ok (.vdict ret), s2)
      | _ => (.error .typeError, s)

/-- `TagService.update` as called (tag.py line 135): the raw body wrapped by
`add_to_history` then `audit` (which will try to unpack the returned dict). -/
def TagService.update (user : String) (tag_id : String) (sequence : Nat)
    (payload : Dict) : Meth :=
  audit auditAdd user
    (add_to_history histAdd (TagService.update_raw user tag_id sequence payload))

/-- `TagService.delete` body before decoration (tag.py line 158): reads the
tag, re-stamps meta, sets `deleted` equal to the new `updated` value, writes
conditionally, records its audit entry inline (the message reads
`tag["name"]`), and returns the store response dict alone (not a pair). -/
def TagService.delete_raw (user : String) (tag_id : String) (sequence : Nat) : Meth := fun s =>
  match svcGet s.store tag_id sequence with
  | .error e => (.error e, s)
  | .ok resp =>
    match dgetE resp "_source" with
    | .error e => (.error e, s)
    | .ok src =>
      match src with
      | .vdict tagSrc =>
        let tag1 := TagService._update_meta user s.now tagSrc
        match dgetE tag1 "updated" with
        | .error e => (.error e, s)
        | .ok upd =>
          let tag2 := dset tag1 "deleted" upd
          match svcIndex s.store tag2 tag_id (some sequence) with
          | .error e => (.error e, s)
          | .ok (deleted, st2) =>
            match dgetE deleted "_version" with
            | .error e => (.error e, { s with store := st2 })
            | .ok ver =>
              match dgetE tag2 "name" with
              | .error e => (.error e, { s with store := st2 })
              | .ok namev =>
                let ad : Dict :=
                  [("action", .vstr "delete"), ("component", .vstr "tag"),
                   ("message", .vstr ("Tag [" ++ pyStr namev ++ "] deleted")),
                   ("user", .vstr user), ("tag_id", .vstr tag_id), ("version", ver)]
                match auditAdd ad { s with store := st2 } with
                | (.error e, s2) => (.error e, s2)
                | (.ok _, s2) => (.ok (.vdict deleted), s2)
      | _ => (.error .typeError, s)

/-- `TagService.delete` as called (tag.py line 156). -/
def TagService.delete (user : String) (tag_id : String) (sequence : Nat) : Meth :=
  audit auditAdd user (add_to_history histAdd (TagService.delete_raw user tag_id sequence))

/-- The list comprehension of tag.py line 190:
`[ref for ref in tag["references"] if ref["id"] != reference_id]`.
Each element is subscripted with `"id"` (KeyError when a dict lacks it,
TypeError when an element is not a dict). -/
def filterRefs (rid : String) : List PyVal → Except Err (List PyVal)
  | [] => .ok []
  | r :: rest =>
    match r with
    | .vdict d =>
      match dgetE d "id" with
      | .error e => .error e
      | .ok v =>
        match filterRefs rid rest with
        | .error e => .error e
        | .ok tl => .ok (if pyNeStr v rid then r :: tl else tl)
    | _ => .error .typeError

/-- `TagService.delete_reference` body before decoration (tag.py line 182):
reads the tag, subscripts `tag["references"]` (KeyError when absent), raises
NotFound when that value is falsy, filters out references whose `id` equals
the supplied id, writes conditionally, and returns the audit intent with the
response. -/
def TagService.delete_reference_raw (user : String) (tag_id : String)
    (sequence : Nat) (reference_id : String) : Meth := fun s =>
  match svcGet s.store tag_id sequence with
  | .error e => (.error e, s)
  | .ok resp =>
    match dgetE resp "_source" with
    | .error e => (.error e, s)
    | .ok src =>
      match src with
      | .vdict tagSrc =>
        match dgetE tagSrc "references" with
        | .error e => (.error e, s)
        | .ok refsv =>
          if truthy refsv then
            match refsv with
            | .vlist refs =>
              match filterRefs reference_id refs with
              | .error e => (.error e, s)
              | .ok kept =>
                let tag2 := dset tagSrc "references" (.vlist kept)
                match svcIndex s.store tag2 tag_id (some sequence) with
                | .error e => (.error e, s)
                | .ok (ret, st2) =>
                  match dgetE ret "_version" with
                  | .error e => (.error e, { s with store := st2 })
                  | .ok ver =>
                    let audit_args : Dict :=
                      [("action", .vstr "update"), ("component", .vstr "tag"),
                       ("message", .vstr ("Tag [" ++ tag_id ++ "] had reference " ++
                         reference_id ++ " deleted")),
                       ("tag_id", .vstr tag_id), ("version", ver),
                       ("subcomponent", .vstr "references"),
                       ("subcomponent_action", .vstr "delete")]
                    (.ok (.vtuple [.vdict audit_args, .vdict ret]), { s with store := st2 })
            | _ => (.error .typeError, s)
          else (.error .notFound, s)
      | _ => (.error .typeError, s)

/-- `TagService.delete_reference` as called (tag.py line 180). -/
def TagService.delete_reference (user : String) (tag_id : String)
    (sequence : Nat) (reference_id : String) : Meth :=
  audit auditAdd user
    (add_to_history histAdd (TagService.delete_reference_raw user tag_id sequence reference_id))

/-- Pagination arguments (their parsing is out of scope per spec section 1;
the default limit and offset values are not claim-relevant). -/
structure PaginationArgs : Type where
  limit : Nat := 10
  offset : Nat := 0

/-- Caller filtering arguments, modelled semantically as a predicate on
document bodies (argument parsing is out of scope per spec section 1). -/
structure FilteringArgs : Type where
  pred : Dict → Bool := fun _ => true

/-- Sorting arguments (parsing out of scope per spec section 1; modelled as
the store order, which no claim depends on). -/
structure SortingArgs : Type where
  unused : Unit := ()

/-- Modelled from the spec: the only structural filter tag.py builds — the
bool/must_not/exists query on `deleted` excluding soft-deleted documents
(tag.py lines 62 and 76). -/
inductive StructFilter : Type where
  | excludeDeleted : StructFilter

/-- Whether a document body passes an optional structural filter. -/
def matchesFilter (q : Option StructFilter) (body : Dict) : Bool :=
  match q with
  | none => true
  | some .excludeDeleted => (alookup body "deleted").isNone

/-- Modelled from the spec: store `count(structuralFilter?)` (section 6). -/
def baseCount (st : Store) (q : Option StructFilter) : Nat :=
  (st.docs.filter (fun kv => matchesFilter q kv.2.body)).length

/-- Modelled from the spec: `BaseService.list` / store `search` (section 6):
applies the caller filter and the extra structural filter, then paging. -/
def baseList (st : Store) (pagination : PaginationArgs) (filtering : FilteringArgs)
    (_sorting : SortingArgs) (extra : Option StructFilter) : Nat × Nat × List Dict :=
  let docs := (st.docs.filter
    (fun kv => matchesFilter extra kv.2.body && filtering.pred kv.2.body)).map
    (fun kv => kv.2.body)
  (pagination.limit, pagination.offset, (docs.drop pagination.offset).take pagination.limit)

/-- `TagService.count` (tag.py line 57): `include_deleted` defaults to false;
when false the must_not-exists-deleted query is applied. -/
def TagService.count (st : Store) (include_deleted : Bool := false) : Nat :=
  let query := if include_deleted then none else some StructFilter.excludeDeleted
  baseCount st query

/-- `TagService.list` (tag.py line 65): `include_deleted` defaults to true;
totalCount is computed via `count` under the same policy, before paging. -/
def TagService.list (st : Store) (pagination : PaginationArgs := {})
    (filtering : FilteringArgs := {}) (sorting : SortingArgs := {})
    (include_deleted : Bool := true) : Nat × Nat × Nat × List Dict :=
  let extra := if include_deleted then none else some StructFilter.excludeDeleted
  let total := TagService.count st include_deleted
  let r := baseList st pagination filtering sorting extra
  (total, r.1, r.2.1, r.2.2)

/-! ### Dictionary lemmas -/

theorem alookup_dset_self {α : Type} (d : List (String × α)) (k : String) (v : α) :
    alookup (dset d k v) k = some v := by
  induction d with
  | nil => simp [dset, alookup]
  | cons hd tl ih =>
    obtain ⟨k1, v1⟩ := hd
    by_cases h : k1 = k
    · simp [dset, h, alookup]
    · simp [dset, h, alookup, ih]

theorem alookup_dset_ne {α : Type} (d : List (String × α)) (k k1 : String) (v : α)
    (h : k1 ≠ k) : alookup (dset d k v) k1 = alookup d k1 := by
  have h2 : k ≠ k1 := Ne.symm h
  induction d with
  | nil => simp [dset, alookup, h2]
  | cons hd tl ih =>
    obtain ⟨k2, v2⟩ := hd
    by_cases hk : k2 = k
    · subst hk
      simp [dset, alookup, h2]
    · simp [dset, hk, alookup, ih]

theorem alookup_append {α : Type} (xs ys : List (String × α)) (k : String) :
    alookup (xs ++ ys) k =
      match alookup xs k with
      | some v => some v
      | none => alookup ys k := by
  induction xs with
  | nil => simp [alookup]
  | cons hd tl ih =>
    obtain ⟨k1, v1⟩ := hd
    by_cases h : k1 = k
    · simp [alookup, h]
    · simp [alookup, h, ih]

theorem alookup_dunion_left (a b : Dict) (k : String) :
    alookup (a.map (fun kv => (kv.1, (alookup b kv.1).getD kv.2))) k =
      (alookup a k).map (fun v => (alookup b k).getD v) := by
  induction a with
  | nil => simp [alookup]
  | cons hd tl ih =>
    obtain ⟨k1, v1⟩ := hd
    by_cases h : k1 = k
    · subst h
      simp [alookup]
    · simp [alookup, h, ih]

theorem alookup_dunion_right (a b : Dict) (k : String) :
    alookup (b.filter (fun kv => (alookup a kv.1).isNone)) k =
      if (alookup a k).isNone then alookup b k else none := by
  induction b with
  | nil => simp [alookup]
  | cons hd tl ih =>
    obtain ⟨k1, v1⟩ := hd
    by_cases h : k1 = k
    · subst h
      cases ha : alookup a k1 with
      | none => simp [List.filter_cons, ha, alookup, ih]
      | some w => simp [List.filter_cons, ha, alookup, ih]
    · cases ha : alookup a k1 with
      | none => simp [List.filter_cons, ha, alookup, h, ih]
      | some w => simp [List.filter_cons, ha, alookup, h, ih]

/-- Per-key description of the shallow merge `a | b`: a key present in the
payload `b` gets its `b` value, any other key keeps its `a` value. -/
theorem alookup_dunion (a b : Dict) (k : String) :
    alookup (dunion a b) k =
      match alookup b k with
      | some v => some v
      | none => alookup a k := by
  unfold dunion
  rw [alookup_append, alookup_dunion_left, alookup_dunion_right]
  cases ha : alookup a k with
  | none => cases hb : alookup b k <;> simp
  | some v => cases hb : alookup b k <;> simp [hb]

/-! ### `_update_meta` lemmas -/

theorem update_meta_state (u : String) (now : Nat) (p : Dict) :
    alookup (TagService._update_meta u now p) "state" = some .vnone := by
  unfold TagService._update_meta
  exact alookup_dset_self _ _ _

theorem update_meta_editor (u : String) (now : Nat) (p : Dict) :
    alookup (TagService._update_meta u now p) "editor" = some (.vstr u) := by
  unfold TagService._update_meta
  rw [alookup_dset_ne _ _ _ _ (by decide)]
  exact alookup_dset_self _ _ _

theorem update_meta_updated (u : String) (now : Nat) (p : Dict) :
    alookup (TagService._update_meta u now p) "updated" = some (.vnat now) := by
  unfold TagService._update_meta
  rw [alookup_dset_ne _ _ _ _ (by decide), alookup_dset_ne _ _ _ _ (by decide)]
  exact alookup_dset_self _ _ _

theorem update_meta_other (u : String) (now : Nat) (p : Dict) (k : String)
    (h1 : k ≠ "updated") (h2 : k ≠ "editor") (h3 : k ≠ "state") :
    alookup (TagService._update_meta u now p) k = alookup p k := by
  unfold TagService._update_meta
  rw [alookup_dset_ne _ _ _ _ h3, alookup_dset_ne _ _ _ _ h2,
    alookup_dset_ne _ _ _ _ h1]

/-! ### Decorator behaviour lemmas -/

/-- If the wrapped method errors, the decorated method propagates the error
with the wrapped method's state unchanged. -/
theorem audit_hist_error {hA : PyVal → SvcState → Except Err Unit × SvcState}
    {aA : Dict → SvcState → Except Err Unit × SvcState} {u : String}
    {wrapped : Meth} {s s1 : SvcState} {e : Err}
    (h : wrapped s = (.error e, s1)) :
    audit aA u (add_to_history hA wrapped) s = (.error e, s1) := by
  unfold audit add_to_history
  rw [h]

/-- If the wrapped method returns the `(audit_args, ret)` pair, the decorated
method appends one history entry then one completed audit entry to the trace
and returns `ret`. -/
theorem audit_hist_ok {u : String} {wrapped : Meth} {s s1 : SvcState}
    {ad : Dict} {ret : PyVal}
    (h : wrapped s = (.ok (.vtuple [.vdict ad, ret]), s1)) :
    audit auditAdd u (add_to_history histAdd wrapped) s =
      (.ok ret,
       { s1 with trace := s1.trace ++ [.hist ret, .audit (dset ad "user" (.vstr u))] }) := by
  unfold audit add_to_history histAdd auditAdd unpack2
  rw [h]
  simp

/-- If the wrapped method returns a dict whose key count is not two (as the
store response envelope is), the decorated method raises ValueError from the
tuple unpacking, leaving the wrapped method's state unchanged. -/
theorem audit_hist_dict4 {u : String} {wrapped : Meth} {s s1 : SvcState}
    {p1 p2 p3 p4 : String × PyVal}
    (h : wrapped s = (.ok (.vdict [p1, p2, p3, p4]), s1)) :
    audit auditAdd u (add_to_history histAdd wrapped) s = (.error .valueError, s1) := by
  unfold audit add_to_history unpack2
  rw [h]

/-! ### Operation characterisation lemmas -/

/-- The document body `create` writes: payload with meta stamped, `author`
set to the actor, and `created` set to the `updated` timestamp. -/
def createBody (u : String) (now : Nat) (td : Dict) : Dict :=
  dset (dset (TagService._update_meta u now td) "author" (.vstr u)) "created" (.vnat now)

/-- The audit intent `create` builds. -/
def createAuditArgs (newId : String) : Dict :=
  [("action", .vstr "create"), ("component", .vstr "tag"),
   ("message", .vstr "Creating new Tag"), ("tag_id", .vstr newId),
   ("version", .vnat 1)]

theorem create_raw_ok (u : String) (td : Dict) (s : SvcState) (nv : PyVal)
    (hfresh : alookup s.store.docs s.freshId = none)
    (hname : alookup td "name" = some nv) :
    TagService.create_raw u td s =
      (.ok (.vtuple [.vdict (createAuditArgs s.freshId),
        .vdict (respDict ⟨createBody u s.now td, 1⟩)]),
       { s with store := ⟨dset s.store.docs s.freshId ⟨createBody u s.now td, 1⟩⟩ }) := by
  have h1 : alookup (dset (TagService._update_meta u s.now td) "author" (.vstr u)) "updated"
      = some (.vnat s.now) := by
    rw [alookup_dset_ne _ _ _ _ (by decide)]
    exact update_meta_updated u s.now td
  have h2 : alookup (createBody u s.now td) "name" = some nv := by
    unfold createBody
    rw [alookup_dset_ne _ _ _ _ (by decide), alookup_dset_ne _ _ _ _ (by decide),
      update_meta_other u s.now td "name" (by decide) (by decide) (by decide)]
    exact hname
  unfold TagService.create_raw
  simp only [dgetE, h1]
  unfold createBody at h2 ⊢
  simp only [h2, svcIndex, hfresh, respDict, alookup, createAuditArgs]
  simp

theorem dgetE_resp_source (sd : StoredDoc) :
    dgetE (respDict sd) "_source" = .ok (.vdict sd.body) := by
  simp [respDict, dgetE, alookup]

theorem dgetE_resp_version (sd : StoredDoc) :
    dgetE (respDict sd) "_version" = .ok (.vnat sd.version) := by
  simp [respDict, dgetE, alookup]

/-- The audit intent `create_reference` builds. -/
def refAuditArgs (u tag_id : String) (payload : Dict) (ver : Nat) : Dict :=
  [("action", .vstr "update"), ("component", .vstr "tag"),
   ("message", .vstr ("Tag [" ++ tag_id ++ "] had " ++ keysRepr payload ++
     " modified by [" ++ u ++ "]")),
   ("tag_id", .vstr tag_id), ("version", .vnat ver),
   ("subcomponent", .vstr "references"), ("subcomponent_action", .vstr "create")]

theorem create_reference_raw_ok (u tag_id : String) (seq : Nat) (payload : Dict)
    (s : SvcState) (sd : StoredDoc) (refs : List PyVal)
    (hfind : alookup s.store.docs tag_id = some sd)
    (hver : sd.version = seq)
    (hrefs : (alookup sd.body "references").getD (.vlist []) = .vlist refs) :
    TagService.create_reference_raw u tag_id seq payload s =
      (.ok (.vtuple [.vdict (refAuditArgs u tag_id payload (seq + 1)),
        .vdict (respDict ⟨dset sd.body "references" (.vlist (refs ++ [.vdict payload])), seq + 1⟩)]),
       { s with store := ⟨dset s.store.docs tag_id
          ⟨dset sd.body "references" (.vlist (refs ++ [.vdict payload])), seq + 1⟩⟩ }) := by
  subst hver
  unfold TagService.create_reference_raw
  simp only [svcGet, hfind, dgetE_resp_source, dgetDefault, hrefs, svcIndex,
    eq_self_iff_true, if_true, dgetE_resp_version, refAuditArgs]

/-- The inline audit mapping `update` records (tag.py line 145). -/
def updateInlineAudit (u tag_id : String) (payload : Dict) (ver : Nat) : Dict :=
  [("action", .vstr "update"), ("component", .vstr "tag"),
   ("message", .vstr ("Tag [" ++ tag_id ++ "] had " ++ keysRepr payload ++
     " modified by [" ++ u ++ "]")),
   ("user", .vstr u), ("tag_id", .vstr tag_id), ("version", .vnat ver)]

theorem update_raw_ok (u tag_id : String) (seq : Nat) (payload : Dict)
    (s : SvcState) (sd : StoredDoc)
    (hfind : alookup s.store.docs tag_id = some sd)
    (hver : sd.version = seq) :
    TagService.update_raw u tag_id seq payload s =
      (.ok (.vdict (respDict
          ⟨TagService._update_meta u s.now (dunion sd.body payload), seq + 1⟩)),
       { s with
         store := ⟨dset s.store.docs tag_id
           ⟨TagService._update_meta u s.now (dunion sd.body payload), seq + 1⟩⟩,
         trace := s.trace ++ [.audit (updateInlineAudit u tag_id payload (seq + 1))] }) := by
  subst hver
  unfold TagService.update_raw
  simp only [svcGet, hfind, dgetE_resp_source, svcIndex, eq_self_iff_true,
    if_true, dgetE_resp_version, auditAdd, updateInlineAudit]

/-- The document body `delete` writes: meta re-stamped and `deleted` set to
the new `updated` timestamp. -/
def deleteBody (u : String) (now : Nat) (body : Dict) : Dict :=
  dset (TagService._update_meta u now body) "deleted" (.vnat now)

/-- The inline audit mapping `delete` records (tag.py line 169). -/
def deleteInlineAudit (u tag_id : String) (nv : PyVal) (ver : Nat) : Dict :=
  [("action", .vstr "delete"), ("component", .vstr "tag"),
   ("message", .vstr ("Tag [" ++ pyStr nv ++ "] deleted")),
   ("user", .vstr u), ("tag_id", .vstr tag_id), ("version", .vnat ver)]

theorem delete_raw_ok (u tag_id : String) (seq : Nat)
    (s : SvcState) (sd : StoredDoc) (nv : PyVal)
    (hfind : alookup s.store.docs tag_id = some sd)
    (hver : sd.version = seq)
    (hname : alookup sd.body "name" = some nv) :
    TagService.delete_raw u tag_id seq s =
      (.ok (.vdict (respDict ⟨deleteBody u s.now sd.body, seq + 1⟩)),
       { s with
         store := ⟨dset s.store.docs tag_id ⟨deleteBody u s.now sd.body, seq + 1⟩⟩,
         trace := s.trace ++ [.audit (deleteInlineAudit u tag_id nv (seq + 1))] }) := by
  subst hver
  have h1 : alookup (TagService._update_meta u s.now sd.body) "updated"
      = some (.vnat s.now) := update_meta_updated u s.now sd.body
  have h2 : alookup (deleteBody u s.now sd.body) "name" = some nv := by
    unfold deleteBody
    rw [alookup_dset_ne _ _ _ _ (by decide),
      update_meta_other u s.now sd.body "name" (by decide) (by decide) (by decide)]
    exact hname
  have hu : dgetE (TagService._update_meta u s.now sd.body) "updated"
      = .ok (.vnat s.now) := by
    simp [dgetE, h1]
  have hn : dgetE (dset (TagService._update_meta u s.now sd.body) "deleted"
      (.vnat s.now)) "name" = .ok nv := by
    unfold deleteBody at h2
    simp [dgetE, h2]
  unfold TagService.delete_raw
  unfold deleteBody
  simp only [svcGet, hfind, dgetE_resp_source, hu, svcIndex,
    eq_self_iff_true, if_true, dgetE_resp_version, hn, auditAdd, deleteInlineAudit]

/-- The audit intent `delete_reference` builds. -/
def delRefAuditArgs (tag_id reference_id : String) (ver : Nat) : Dict :=
  [("action", .vstr "update"), ("component", .vstr "tag"),
   ("message", .vstr ("Tag [" ++ tag_id ++ "] had reference " ++
     reference_id ++ " deleted")),
   ("tag_id", .vstr tag_id), ("version", .vnat ver),
   ("subcomponent", .vstr "references"),
   ("subcomponent_action", .vstr "delete")]

theorem delete_reference_raw_ok (u tag_id reference_id : String) (seq : Nat)
    (s : SvcState) (sd : StoredDoc) (refs kept : List PyVal)
    (hfind : alookup s.store.docs tag_id = some sd)
    (hver : sd.version = seq)
    (hrefs : alookup sd.body "references" = some (.vlist refs))
    (hne : refs ≠ [])
    (hfilter : filterRefs reference_id refs = .ok kept) :
    TagService.delete_reference_raw u tag_id seq reference_id s =
      (.ok (.vtuple [.vdict (delRefAuditArgs tag_id reference_id (seq + 1)),
        .vdict (respDict ⟨dset sd.body "references" (.vlist kept), seq + 1⟩)]),
       { s with store := ⟨dset s.store.docs tag_id
          ⟨dset sd.body "references" (.vlist kept), seq + 1⟩⟩ }) := by
  subst hver
  have htr : truthy (.vlist refs) = true := by
    cases refs with
    | nil => exact absurd rfl hne
    | cons a l => simp [truthy]
  have hr : dgetE sd.body "references" = .ok (.vlist refs) := by
    simp [dgetE, hrefs]
  unfold TagService.delete_reference_raw
  simp only [svcGet, hfind, dgetE_resp_source, hr, htr, if_true,
    hfilter, svcIndex, eq_self_iff_true, dgetE_resp_version, delRefAuditArgs]

theorem delete_reference_raw_absent (u tag_id reference_id : String) (seq : Nat)
    (s : SvcState) (sd : StoredDoc)
    (hfind : alookup s.store.docs tag_id = some sd)
    (habs : alookup sd.body "references" = none) :
    TagService.delete_reference_raw u tag_id seq reference_id s =
      (.error (.keyError "references"), s) := by
  have hr : dgetE sd.body "references" = .error (.keyError "references") := by
    simp [dgetE, habs]
  unfold TagService.delete_reference_raw
  simp only [svcGet, hfind, dgetE_resp_source, hr]

theorem delete_reference_raw_empty (u tag_id reference_id : String) (seq : Nat)
    (s : SvcState) (sd : StoredDoc)
    (hfind : alookup s.store.docs tag_id = some sd)
    (hempty : alookup sd.body "references" = some (.vlist [])) :
    TagService.delete_reference_raw u tag_id seq reference_id s =
      (.error .notFound, s) := by
  have hr : dgetE sd.body "references" = .ok (.vlist []) := by
    simp [dgetE, hempty]
  unfold TagService.delete_reference_raw
  simp only [svcGet, hfind, dgetE_resp_source, hr, truthy,
    List.isEmpty_nil, Bool.not_true]
  simp

/-! ### Claim theorems -/

/-- C9: for any fixed caller filter and includeDeleted policy, the totalCount
returned by `list` equals `count` under the same includeDeleted policy, and
is independent of the pagination arguments: changing limit or offset never
changes totalCount. -/
theorem C9_totalCount_independent_of_pagination (st : Store)
    (p1 p2 : PaginationArgs) (f : FilteringArgs) (srt : SortingArgs)
    (incl : Bool) :
    (TagService.list st p1 f srt incl).1 = TagService.count st incl ∧
    (TagService.list st p1 f srt incl).1 = (TagService.list st p2 f srt incl).1 := by
  exact ⟨rfl, rfl⟩

/-- C10: with the includeDeleted argument omitted, `count` excludes
soft-deleted tags (its `include_deleted` defaults to false, counting only
documents without a `deleted` field) while `list` includes them (its
`include_deleted` defaults to true, so its totalCount counts every
document); on a store holding one live and one soft-deleted tag, the default
`count` is 1 while the default `list` reports totalCount 2. -/
theorem C10_opposite_default_soft_delete_policies :
    (∀ st : Store, TagService.count st =
      (st.docs.filter (fun kv => (alookup kv.2.body "deleted").isNone)).length) ∧
    (∀ (st : Store) (p : PaginationArgs) (f : FilteringArgs) (srt : SortingArgs),
      (TagService.list st p f srt).1 = st.docs.length) ∧
    TagService.count ⟨[("t1", ⟨[("name", .vstr "a")], 1⟩),
      ("t2", ⟨[("name", .vstr "b"), ("deleted", .vnat 5)], 2⟩)]⟩ = 1 ∧
    (TagService.list ⟨[("t1", ⟨[("name", .vstr "a")], 1⟩),
      ("t2", ⟨[("name", .vstr "b"), ("deleted", .vnat 5)], 2⟩)]⟩).1 = 2 := by
  refine ⟨fun st => rfl, fun st p f srt => ?_, by decide, by decide⟩
  show TagService.count st true = st.docs.length
  simp [TagService.count, baseCount, matchesFilter]

/-- Whether `delete_reference` keeps a reference: its `id` value differs from
the supplied reference id. -/
def keepRef (rid : String) (r : PyVal) : Bool :=
  match r with
  | .vdict d => pyNeStr ((alookup d "id").getD .vnone) rid
  | _ => true

/-- On a list of reference dicts that all carry an `id`, the comprehension of
tag.py line 190 is an order-preserving `List.filter`. -/
theorem filterRefs_wf (rid : String) (refs : List PyVal)
    (hwf : ∀ r ∈ refs, ∃ d v, r = .vdict d ∧ alookup d "id" = some v) :
    filterRefs rid refs = .ok (refs.filter (keepRef rid)) := by
  induction refs with
  | nil => simp [filterRefs]
  | cons a l ih =>
    obtain ⟨d, v, ha, hv⟩ := hwf a (List.mem_cons_self _ _)
    subst ha
    have ihl := ih (fun r hr => hwf r (List.mem_cons_of_mem _ hr))
    simp only [filterRefs, dgetE, hv, ihl, List.filter_cons, keepRef, Option.getD]

/-- C7 counterexample: on a tag whose `references` field is absent,
`delete_reference` raises KeyError (Python's `tag["references"]` subscript on
a missing key), which is not the NotFound error the claim requires for the
absent case. -/
theorem C7_counterexample_absent_is_keyerror :
    TagService.delete_reference "alice" "t1" 3 "r1"
        ⟨⟨[("t1", ⟨[("name", .vstr "t")], 3⟩)]⟩, [], 50, "f"⟩ =
      (.error (.keyError "references"),
        ⟨⟨[("t1", ⟨[("name", .vstr "t")], 3⟩)]⟩, [], 50, "f"⟩) ∧
    Err.keyError "references" ≠ Err.notFound := ⟨rfl, by decide⟩

/-- C7 amended: `delete_reference` performs no write in either degenerate
case (the state comes back unchanged), but only the present-and-empty case
raises NotFound; when `references` is absent it raises KeyError instead. -/
theorem C7_amended_notfound_only_when_empty (u id rid : String) (seq : Nat)
    (s : SvcState) (sd : StoredDoc)
    (hfind : alookup s.store.docs id = some sd) :
    (alookup sd.body "references" = none →
      TagService.delete_reference u id seq rid s = (.error (.keyError "references"), s)) ∧
    (alookup sd.body "references" = some (.vlist []) →
      TagService.delete_reference u id seq rid s = (.error .notFound, s)) := by
  constructor
  · intro h
    exact audit_hist_error (delete_reference_raw_absent u id rid seq s sd hfind h)
  · intro h
    exact audit_hist_error (delete_reference_raw_empty u id rid seq s sd hfind h)

theorem C7_amended_witness :
    TagService.delete_reference "bob" "t1" 3 "r9"
        ⟨⟨[("t1", ⟨[("name", .vstr "t")], 3⟩)]⟩, [], 50, "f"⟩ =
      (.error (.keyError "references"),
        ⟨⟨[("t1", ⟨[("name", .vstr "t")], 3⟩)]⟩, [], 50, "f"⟩) ∧
    TagService.delete_reference "bob" "t2" 7 "r9"
        ⟨⟨[("t2", ⟨[("references", .vlist [])], 7⟩)]⟩, [], 50, "f"⟩ =
      (.error .notFound,
        ⟨⟨[("t2", ⟨[("references", .vlist [])], 7⟩)]⟩, [], 50, "f"⟩) :=
  ⟨(C7_amended_notfound_only_when_empty "bob" "t1" "r9" 3
      ⟨⟨[("t1", ⟨[("name", .vstr "t")], 3⟩)]⟩, [], 50, "f"⟩
      ⟨[("name", .vstr "t")], 3⟩ rfl).1 rfl,
   (C7_amended_notfound_only_when_empty "bob" "t2" "r9" 7
      ⟨⟨[("t2", ⟨[("references", .vlist [])], 7⟩)]⟩, [], 50, "f"⟩
      ⟨[("references", .vlist [])], 7⟩ rfl).2 rfl⟩

/-- C8: on a tag whose `references` is a non-empty list of reference dicts
(each carrying an `id`, per the Reference data model), `delete_reference`
succeeds and writes back exactly the references whose `id` differs from the
supplied referenceId, in their original order (an order-preserving
`List.filter`); and whenever no reference matches, the written list equals
the original one unchanged, with no error raised. -/
theorem C8_delete_reference_filters_by_id (u id rid : String) (seq : Nat)
    (s : SvcState) (sd : StoredDoc) (refs : List PyVal)
    (hfind : alookup s.store.docs id = some sd)
    (hver : sd.version = seq)
    (hrefs : alookup sd.body "references" = some (.vlist refs))
    (hne : refs ≠ [])
    (hwf : ∀ r ∈ refs, ∃ d v, r = .vdict d ∧ alookup d "id" = some v) :
    (TagService.delete_reference u id seq rid s).1 =
      .ok (.vdict (respDict ⟨dset sd.body "references"
        (.vlist (refs.filter (keepRef rid))), seq + 1⟩)) ∧
    alookup ((TagService.delete_reference u id seq rid s).2.store.docs) id =
      some ⟨dset sd.body "references" (.vlist (refs.filter (keepRef rid))), seq + 1⟩ ∧
    ((∀ r ∈ refs, keepRef rid r = true) → refs.filter (keepRef rid) = refs) := by
  have hdec := audit_hist_ok (u := u)
    (delete_reference_raw_ok u id rid seq s sd refs (refs.filter (keepRef rid))
      hfind hver hrefs hne (filterRefs_wf rid refs hwf))
  unfold TagService.delete_reference at *
  rw [hdec]
  refine ⟨rfl, ?_, fun h => List.filter_eq_self.mpr h⟩
  exact alookup_dset_self _ _ _

theorem C8_witness :
    alookup (TagService.delete_reference "alice" "t1" 3 "r1"
        ⟨⟨[("t1", ⟨[("name", .vstr "t"),
          ("references", .vlist [.vdict [("id", .vstr "r1")], .vdict [("id", .vstr "r2")]])], 3⟩)]⟩,
         [], 50, "f"⟩).2.store.docs "t1" =
      some ⟨[("name", .vstr "t"),
        ("references", .vlist [.vdict [("id", .vstr "r2")]])], 4⟩ ∧
    alookup (TagService.delete_reference "alice" "t1" 4 "r1"
        ⟨⟨[("t1", ⟨[("name", .vstr "t"),
          ("references", .vlist [.vdict [("id", .vstr "r2")]])], 4⟩)]⟩,
         [], 51, "f"⟩).2.store.docs "t1" =
      some ⟨[("name", .vstr "t"),
        ("references", .vlist [.vdict [("id", .vstr "r2")]])], 5⟩ ∧
    [.vdict [("id", .vstr "r2")]].filter (keepRef "r1") = [.vdict [("id", .vstr "r2")]] := by
  have h1 := (C8_delete_reference_filters_by_id "alice" "t1" "r1" 3
    ⟨⟨[("t1", ⟨[("name", .vstr "t"),
      ("references", .vlist [.vdict [("id", .vstr "r1")], .vdict [("id", .vstr "r2")]])], 3⟩)]⟩,
     [], 50, "f"⟩
    ⟨[("name", .vstr "t"),
      ("references", .vlist [.vdict [("id", .vstr "r1")], .vdict [("id", .vstr "r2")]])], 3⟩
    [.vdict [("id", .vstr "r1")], .vdict [("id", .vstr "r2")]]
    rfl rfl rfl (List.cons_ne_nil _ _)
    (by
      intro r hr
      simp only [List.mem_cons, List.not_mem_nil, or_false] at hr
      rcases hr with rfl | rfl
      · exact ⟨_, _, rfl, rfl⟩
      · exact ⟨_, _, rfl, rfl⟩)).2
  have h2 := (C8_delete_reference_filters_by_id "alice" "t1" "r1" 4
    ⟨⟨[("t1", ⟨[("name", .vstr "t"),
      ("references", .vlist [.vdict [("id", .vstr "r2")]])], 4⟩)]⟩,
     [], 51, "f"⟩
    ⟨[("name", .vstr "t"), ("references", .vlist [.vdict [("id", .vstr "r2")]])], 4⟩
    [.vdict [("id", .vstr "r2")]]
    rfl rfl rfl (List.cons_ne_nil _ _)
    (by
      intro r hr
      simp only [List.mem_cons, List.not_mem_nil, or_false] at hr
      rcases hr with rfl
      exact ⟨_, _, rfl, rfl⟩)).2
  exact ⟨h1.1, h2.1, rfl⟩

/-- C5: on an existing tag, `update` writes the shallow merge of the payload
over the current fields: the written document is the dict union (payload
keys overwrite in place, all other top-level keys untouched) with meta
re-stamped — per key, outside the three meta keys, the written value is the
payload value when the payload has the key and the existing value otherwise;
`state` is cleared to None, `editor` set to the actor and `updated` to the
current time. -/
theorem C5_update_shallow_merge (u id : String) (seq : Nat) (payload : Dict)
    (s : SvcState) (sd : StoredDoc)
    (hfind : alookup s.store.docs id = some sd)
    (hver : sd.version = seq) :
    alookup ((TagService.update u id seq payload s).2.store.docs) id =
      some ⟨TagService._update_meta u s.now (dunion sd.body payload), seq + 1⟩ ∧
    (∀ k : String, k ≠ "updated" → k ≠ "editor" → k ≠ "state" →
      alookup (TagService._update_meta u s.now (dunion sd.body payload)) k =
        match alookup payload k with
        | some v => some v
        | none => alookup sd.body k) ∧
    alookup (TagService._update_meta u s.now (dunion sd.body payload)) "state"
      = some .vnone ∧
    alookup (TagService._update_meta u s.now (dunion sd.body payload)) "editor"
      = some (.vstr u) ∧
    alookup (TagService._update_meta u s.now (dunion sd.body payload)) "updated"
      = some (.vnat s.now) := by
  have hdec := audit_hist_dict4 (u := u)
    (h := update_raw_ok u id seq payload s sd hfind hver)
  unfold TagService.update at *
  rw [hdec]
  refine ⟨alookup_dset_self _ _ _, fun k h1 h2 h3 => ?_,
    update_meta_state u s.now _, update_meta_editor u s.now _,
    update_meta_updated u s.now _⟩
  rw [update_meta_other u s.now _ k h1 h2 h3]
  exact alookup_dunion sd.body payload k

theorem C5_witness :
    alookup ((TagService.update "alice" "t1" 1 [("name", .vstr "new")]
        ⟨⟨[("t1", ⟨[("name", .vstr "old"), ("extra", .vstr "keep")], 1⟩)]⟩,
         [], 50, "f"⟩).2.store.docs) "t1" =
      some ⟨[("name", .vstr "new"), ("extra", .vstr "keep"), ("updated", .vnat 50),
        ("editor", .vstr "alice"), ("state", .vnone)], 2⟩ ∧
    alookup (TagService._update_meta "alice" 50
        (dunion [("name", .vstr "old"), ("extra", .vstr "keep")] [("name", .vstr "new")]))
        "name" = some (.vstr "new") ∧
    alookup (TagService._update_meta "alice" 50
        (dunion [("name", .vstr "old"), ("extra", .vstr "keep")] [("name", .vstr "new")]))
        "extra" = some (.vstr "keep") := by
  have h := C5_update_shallow_merge "alice" "t1" 1 [("name", .vstr "new")]
    ⟨⟨[("t1", ⟨[("name", .vstr "old"), ("extra", .vstr "keep")], 1⟩)]⟩, [], 50, "f"⟩
    ⟨[("name", .vstr "old"), ("extra", .vstr "keep")], 1⟩ rfl rfl
  exact ⟨h.1, h.2.1 "name" (by decide) (by decide) (by decide),
    h.2.1 "extra" (by decide) (by decide) (by decide)⟩

/-- C6 counterexample: the audit entry `create` records carries the fixed
message "Creating new Tag"; two creates with different tag names produce
identical audit messages, so the audit message does not identify the new tag
by name (the name appears only in the log line, which is not the audit
entry). -/
theorem C6_counterexample_audit_message_ignores_name :
    ((TagService.create "alice" [("name", .vstr "alpha")]
        ⟨⟨[]⟩, [], 50, "id1"⟩).2.trace.map
      (fun ev => match ev with | .audit d => alookup d "message" | .hist _ => none)) =
      [none, some (.vstr "Creating new Tag")] ∧
    ((TagService.create "alice" [("name", .vstr "beta")]
        ⟨⟨[]⟩, [], 50, "id1"⟩).2.trace.map
      (fun ev => match ev with | .audit d => alookup d "message" | .hist _ => none)) =
      [none, some (.vstr "Creating new Tag")] := ⟨rfl, rfl⟩

/-- C6 amended: `create` stamps `author` and `editor` to the acting identity,
sets `created` equal to `updated` (both the current time), clears `state`,
writes the document as an unconditional insert under the fresh id (the id
must not already exist), appends one history snapshot then one audit entry
whose action is create — but whose message is the fixed string "Creating new
Tag", which does not mention the tag's name. -/
theorem C6_amended_create_behaviour (u : String) (td : Dict) (s : SvcState)
    (nv : PyVal)
    (hfresh : alookup s.store.docs s.freshId = none)
    (hname : alookup td "name" = some nv) :
    TagService.create u td s =
      (.ok (.vdict (respDict ⟨createBody u s.now td, 1⟩)),
       { s with
         store := ⟨dset s.store.docs s.freshId ⟨createBody u s.now td, 1⟩⟩,
         trace := s.trace ++ [.hist (.vdict (respDict ⟨createBody u s.now td, 1⟩)),
           .audit (dset (createAuditArgs s.freshId) "user" (.vstr u))] }) ∧
    alookup (createBody u s.now td) "author" = some (.vstr u) ∧
    alookup (createBody u s.now td) "editor" = some (.vstr u) ∧
    alookup (createBody u s.now td) "created" = some (.vnat s.now) ∧
    alookup (createBody u s.now td) "updated" = some (.vnat s.now) ∧
    alookup (createBody u s.now td) "state" = some .vnone ∧
    alookup (createAuditArgs s.freshId) "action" = some (.vstr "create") ∧
    alookup (createAuditArgs s.freshId) "message" = some (.vstr "Creating new Tag") := by
  refine ⟨audit_hist_ok (create_raw_ok u td s nv hfresh hname), ?_, ?_, ?_, ?_, ?_, rfl, rfl⟩
  · unfold createBody
    rw [alookup_dset_ne _ _ _ _ (by decide)]
    exact alookup_dset_self _ _ _
  · unfold createBody
    rw [alookup_dset_ne _ _ _ _ (by decide), alookup_dset_ne _ _ _ _ (by decide)]
    exact update_meta_editor u s.now td
  · unfold createBody
    exact alookup_dset_self _ _ _
  · unfold createBody
    rw [alookup_dset_ne _ _ _ _ (by decide), alookup_dset_ne _ _ _ _ (by decide)]
    exact update_meta_updated u s.now td
  · unfold createBody
    rw [alookup_dset_ne _ _ _ _ (by decide), alookup_dset_ne _ _ _ _ (by decide)]
    exact update_meta_state u s.now td

theorem C6_amended_witness :
    TagService.create "alice" [("name", .vstr "alpha")] ⟨⟨[]⟩, [], 50, "id1"⟩ =
      (.ok (.vdict (respDict ⟨createBody "alice" 50 [("name", .vstr "alpha")], 1⟩)),
       ⟨⟨[("id1", ⟨createBody "alice" 50 [("name", .vstr "alpha")], 1⟩)]⟩,
        [.hist (.vdict (respDict ⟨createBody "alice" 50 [("name", .vstr "alpha")], 1⟩)),
         .audit (dset (createAuditArgs "id1") "user" (.vstr "alice"))],
        50, "id1"⟩) ∧
    alookup (createBody "alice" 50 [("name", .vstr "alpha")]) "editor"
      = some (.vstr "alice") ∧
    alookup (createAuditArgs "id1") "message" = some (.vstr "Creating new Tag") := by
  have h := C6_amended_create_behaviour "alice" [("name", .vstr "alpha")]
    ⟨⟨[]⟩, [], 50, "id1"⟩ (.vstr "alpha") rfl rfl
  exact ⟨h.1, h.2.2.1, h.2.2.2.2.2.2.2⟩

/-- C2 counterexample: `create_reference` does not call `_update_meta`; on a
tag whose `editor` is "bob" and whose `state` is a working value, acting as
"alice" leaves `editor`, `state` and `updated` untouched in the written
document (only `references` changes), refuting the claim that every
mutation, including create_reference, overwrites `editor`, sets `updated`
and resets `state`. -/
theorem C2_counterexample_create_reference_keeps_meta :
    alookup ((TagService.create_reference "alice" "t1" 3 [("id", .vstr "r1")]
        ⟨⟨[("t1", ⟨[("name", .vstr "t"), ("editor", .vstr "bob"),
          ("state", .vstr "working"), ("updated", .vnat 10)], 3⟩)]⟩,
         [], 50, "f"⟩).2.store.docs) "t1" =
      some ⟨[("name", .vstr "t"), ("editor", .vstr "bob"), ("state", .vstr "working"),
        ("updated", .vnat 10), ("references", .vlist [.vdict [("id", .vstr "r1")]])], 4⟩ ∧
    ("bob" : String) ≠ "alice" ∧ (10 : Nat) ≠ 50 := ⟨rfl, by decide, by decide⟩

/-- C2 amended: `create`, `update` and `delete` overwrite `editor` with the
acting identity, set `updated` to the current time and reset `state` to None
in the written document (via `_update_meta`); `create_reference` and
`delete_reference` do not — they write the document with `editor`, `updated`
and `state` exactly as they were. -/
theorem C2_amended_meta_stamping (u id rid : String) (seq : Nat) (payload : Dict)
    (s : SvcState) (sd : StoredDoc) :
    (alookup s.store.docs id = some sd → sd.version = seq →
      alookup ((TagService.update u id seq payload s).2.store.docs) id =
        some ⟨TagService._update_meta u s.now (dunion sd.body payload), seq + 1⟩ ∧
      alookup (TagService._update_meta u s.now (dunion sd.body payload)) "editor"
        = some (.vstr u) ∧
      alookup (TagService._update_meta u s.now (dunion sd.body payload)) "updated"
        = some (.vnat s.now) ∧
      alookup (TagService._update_meta u s.now (dunion sd.body payload)) "state"
        = some .vnone) ∧
    (∀ nv, alookup s.store.docs id = some sd → sd.version = seq →
      alookup sd.body "name" = some nv →
      alookup ((TagService.delete u id seq s).2.store.docs) id =
        some ⟨deleteBody u s.now sd.body, seq + 1⟩ ∧
      alookup (deleteBody u s.now sd.body) "editor" = some (.vstr u) ∧
      alookup (deleteBody u s.now sd.body) "updated" = some (.vnat s.now) ∧
      alookup (deleteBody u s.now sd.body) "state" = some .vnone) ∧
    (∀ nv, alookup s.store.docs s.freshId = none → alookup payload "name" = some nv →
      alookup ((TagService.create u payload s).2.store.docs) s.freshId =
        some ⟨createBody u s.now payload, 1⟩ ∧
      alookup (createBody u s.now payload) "editor" = some (.vstr u) ∧
      alookup (createBody u s.now payload) "updated" = some (.vnat s.now) ∧
      alookup (createBody u s.now payload) "state" = some .vnone) ∧
    (∀ refs, alookup s.store.docs id = some sd → sd.version = seq →
      (alookup sd.body "references").getD (.vlist []) = .vlist refs →
      alookup ((TagService.create_reference u id seq payload s).2.store.docs) id =
        some ⟨dset sd.body "references" (.vlist (refs ++ [.vdict payload])), seq + 1⟩ ∧
      alookup (dset sd.body "references" (.vlist (refs ++ [.vdict payload]))) "editor"
        = alookup sd.body "editor" ∧
      alookup (dset sd.body "references" (.vlist (refs ++ [.vdict payload]))) "updated"
        = alookup sd.body "updated" ∧
      alookup (dset sd.body "references" (.vlist (refs ++ [.vdict payload]))) "state"
        = alookup sd.body "state") ∧
    (∀ refs kept, alookup s.store.docs id = some sd → sd.version = seq →
      alookup sd.body "references" = some (.vlist refs) → refs ≠ [] →
      filterRefs rid refs = .ok kept →
      alookup ((TagService.delete_reference u id seq rid s).2.store.docs) id =
        some ⟨dset sd.body "references" (.vlist kept), seq + 1⟩ ∧
      alookup (dset sd.body "references" (.vlist kept)) "editor"
        = alookup sd.body "editor" ∧
      alookup (dset sd.body "references" (.vlist kept)) "updated"
        = alookup sd.body "updated" ∧
      alookup (dset sd.body "references" (.vlist kept)) "state"
        = alookup sd.body "state") := by
  refine ⟨fun hfind hver => ?_, fun nv hfind hver hname => ?_,
    fun nv hfresh hname => ?_, fun refs hfind hver hrefs => ?_,
    fun refs kept hfind hver hrefs hne hfilter => ?_⟩
  · have hdec := audit_hist_dict4 (u := u)
      (h := update_raw_ok u id seq payload s sd hfind hver)
    unfold TagService.update at *
    rw [hdec]
    exact ⟨alookup_dset_self _ _ _, update_meta_editor u s.now _,
      update_meta_updated u s.now _, update_meta_state u s.now _⟩
  · have hdec := audit_hist_dict4 (u := u)
      (h := delete_raw_ok u id seq s sd nv hfind hver hname)
    unfold TagService.delete at *
    rw [hdec]
    refine ⟨alookup_dset_self _ _ _, ?_, ?_, ?_⟩
    · unfold deleteBody
      rw [alookup_dset_ne _ _ _ _ (by decide)]
      exact update_meta_editor u s.now _
    · unfold deleteBody
      rw [alookup_dset_ne _ _ _ _ (by decide)]
      exact update_meta_updated u s.now _
    · unfold deleteBody
      rw [alookup_dset_ne _ _ _ _ (by decide)]
      exact update_meta_state u s.now _
  · have hdec := audit_hist_ok (u := u) (create_raw_ok u payload s nv hfresh hname)
    unfold TagService.create at *
    rw [hdec]
    refine ⟨alookup_dset_self _ _ _, ?_, ?_, ?_⟩
    · unfold createBody
      rw [alookup_dset_ne _ _ _ _ (by decide), alookup_dset_ne _ _ _ _ (by decide)]
      exact update_meta_editor u s.now _
    · unfold createBody
      rw [alookup_dset_ne _ _ _ _ (by decide), alookup_dset_ne _ _ _ _ (by decide)]
      exact update_meta_updated u s.now _
    · unfold createBody
      rw [alookup_dset_ne _ _ _ _ (by decide), alookup_dset_ne _ _ _ _ (by decide)]
      exact update_meta_state u s.now _
  · have hdec := audit_hist_ok (u := u)
      (create_reference_raw_ok u id seq payload s sd refs hfind hver hrefs)
    unfold TagService.create_reference at *
    rw [hdec]
    exact ⟨alookup_dset_self _ _ _,
      alookup_dset_ne _ _ _ _ (by decide),
      alookup_dset_ne _ _ _ _ (by decide),
      alookup_dset_ne _ _ _ _ (by decide)⟩
  · have hdec := audit_hist_ok (u := u)
      (delete_reference_raw_ok u id rid seq s sd refs kept hfind hver hrefs hne hfilter)
    unfold TagService.delete_reference at *
    rw [hdec]
    exact ⟨alookup_dset_self _ _ _,
      alookup_dset_ne _ _ _ _ (by decide),
      alookup_dset_ne _ _ _ _ (by decide),
      alookup_dset_ne _ _ _ _ (by decide)⟩

theorem C2_amended_witness :
    (alookup ((TagService.update "alice" "t1" 3 [("name", .vstr "n")]
        ⟨⟨[("t1", ⟨[("name", .vstr "t"), ("editor", .vstr "bob")], 3⟩)]⟩,
         [], 50, "f"⟩).2.store.docs) "t1" =
      some ⟨[("name", .vstr "n"), ("editor", .vstr "alice"), ("updated", .vnat 50),
        ("state", .vnone)], 4⟩) ∧
    (alookup ((TagService.create_reference "alice" "t1" 3 [("id", .vstr "r1")]
        ⟨⟨[("t1", ⟨[("name", .vstr "t"), ("editor", .vstr "bob")], 3⟩)]⟩,
         [], 50, "f"⟩).2.store.docs) "t1" =
      some ⟨[("name", .vstr "t"), ("editor", .vstr "bob"),
        ("references", .vlist [.vdict [("id", .vstr "r1")]])], 4⟩) ∧
    alookup ([("name", .vstr "t"), ("editor", .vstr "bob"),
        ("references", .vlist [.vdict [("id", .vstr "r1")]])] : Dict) "editor"
      = alookup ([("name", .vstr "t"), ("editor", .vstr "bob")] : Dict) "editor" := by
  have h := C2_amended_meta_stamping "alice" "t1" "r1" 3 [("name", .vstr "n")]
    ⟨⟨[("t1", ⟨[("name", .vstr "t"), ("editor", .vstr "bob")], 3⟩)]⟩, [], 50, "f"⟩
    ⟨[("name", .vstr "t"), ("editor", .vstr "bob")], 3⟩
  have h2 := C2_amended_meta_stamping "alice" "t1" "r1" 3 [("id", .vstr "r1")]
    ⟨⟨[("t1", ⟨[("name", .vstr "t"), ("editor", .vstr "bob")], 3⟩)]⟩, [], 50, "f"⟩
    ⟨[("name", .vstr "t"), ("editor", .vstr "bob")], 3⟩
  exact ⟨(h.1 rfl rfl).1, (h2.2.2.2.1 [] rfl rfl rfl).1,
    (h2.2.2.2.1 [] rfl rfl rfl).2.1⟩

/-- C4: for any domain mutation wrapped by `add_to_history` then `audit`:
(1) if the wrapped mutation raises, the decorated call propagates exactly
that error and leaves the state exactly as the wrapped call left it — in
particular neither the History Recorder nor the Audit Recorder appends
anything; (2) if the wrapped mutation succeeds (returning the audit-intent
pair) but the History Recorder raises, the error propagates and the state is
again exactly the wrapped call's state — the Audit Recorder is never
invoked. -/
theorem C4_pipeline_failure_semantics :
    (∀ (wrapped : Meth) (u : String) (s s1 : SvcState) (e : Err),
      wrapped s = (.error e, s1) →
      audit auditAdd u (add_to_history histAdd wrapped) s = (.error e, s1)) ∧
    (∀ (wrapped : Meth) (u : String) (s s1 : SvcState) (e : Err) (ad : Dict) (ret : PyVal),
      wrapped s = (.ok (.vtuple [.vdict ad, ret]), s1) →
      audit auditAdd u (add_to_history (histAddFail e) wrapped) s = (.error e, s1)) := by
  constructor
  · intro wrapped u s s1 e h
    exact audit_hist_error h
  · intro wrapped u s s1 e ad ret h
    unfold audit add_to_history histAddFail unpack2
    rw [h]

theorem C4_witness :
    audit auditAdd "alice"
      (add_to_history histAdd (fun s => (.error .conflict, s)))
      ⟨⟨[]⟩, [], 0, "f"⟩ = (.error .conflict, ⟨⟨[]⟩, [], 0, "f"⟩) ∧
    audit auditAdd "alice"
      (add_to_history (histAddFail .typeError)
        (fun s => (.ok (.vtuple [.vdict [], .vnone]), s)))
      ⟨⟨[]⟩, [], 0, "f"⟩ = (.error .typeError, ⟨⟨[]⟩, [], 0, "f"⟩) :=
  ⟨C4_pipeline_failure_semantics.1 (fun s => (.error .conflict, s)) "alice"
      ⟨⟨[]⟩, [], 0, "f"⟩ ⟨⟨[]⟩, [], 0, "f"⟩ .conflict rfl,
   C4_pipeline_failure_semantics.2 (fun s => (.ok (.vtuple [.vdict [], .vnone]), s)) "alice"
      ⟨⟨[]⟩, [], 0, "f"⟩ ⟨⟨[]⟩, [], 0, "f"⟩ .typeError [] .vnone rfl⟩

/-- C1: evaluating `update` at a concrete existing tag shows the claim cannot
hold for `update` (and symmetrically `delete`): the conditional write
commits (the stored version bumps to 2 with the merged body) and the inline
audit entry is recorded, but the decorated call then raises ValueError —
`add_to_history` unpacks the dict the method returns as a tuple — so the
trace holds one audit entry and zero history snapshots: an audit append
without a preceding history append, and no successful completion is
possible. -/
theorem C1_update_breaks_history_audit_pairing :
    (TagService.update "alice" "t1" 1 [("name", .vstr "new")]
        ⟨⟨[("t1", ⟨[("name", .vstr "old")], 1⟩)]⟩, [], 50, "f"⟩).1
      = .error .valueError ∧
    histCount (TagService.update "alice" "t1" 1 [("name", .vstr "new")]
        ⟨⟨[("t1", ⟨[("name", .vstr "old")], 1⟩)]⟩, [], 50, "f"⟩).2.trace = 0 ∧
    auditCount (TagService.update "alice" "t1" 1 [("name", .vstr "new")]
        ⟨⟨[("t1", ⟨[("name", .vstr "old")], 1⟩)]⟩, [], 50, "f"⟩).2.trace = 1 ∧
    alookup (TagService.update "alice" "t1" 1 [("name", .vstr "new")]
        ⟨⟨[("t1", ⟨[("name", .vstr "old")], 1⟩)]⟩, [], 50, "f"⟩).2.store.docs "t1"
      = some ⟨[("name", .vstr "new"), ("updated", .vnat 50), ("editor", .vstr "alice"),
          ("state", .vnone)], 2⟩ :=
  ⟨rfl, rfl, rfl, rfl⟩

/-- C3 counterexample: `delete_reference` on an existing tag with no
`references` field fails with KeyError, which is none of the three typed
errors NotFound, Conflict, ValidationFailure. -/
theorem C3_counterexample_untyped_keyerror :
    (TagService.delete_reference "alice" "t1" 3 "r1"
        ⟨⟨[("t1", ⟨[("name", .vstr "t")], 3⟩)]⟩, [], 50, "f"⟩).1
      = .error (.keyError "references") ∧
    Err.keyError "references" ≠ .notFound ∧
    Err.keyError "references" ≠ .conflict ∧
    Err.keyError "references" ≠ .validationFailure :=
  ⟨rfl, by decide, by decide, by decide⟩

/-- The call's outcome is either its documented success value or an error
drawn from the given set. -/
def OutcomeIn (r : Except Err PyVal × SvcState) (allowed : List Err) : Prop :=
  match r.1 with
  | .ok _ => True
  | .error e => e ∈ allowed

theorem create_td2_updated (u : String) (now : Nat) (td : Dict) :
    alookup (dset (TagService._update_meta u now td) "author" (.vstr u)) "updated"
      = some (.vnat now) := by
  rw [alookup_dset_ne _ _ _ _ (by decide)]
  exact update_meta_updated u now td

theorem create_td3_name (u : String) (now : Nat) (td : Dict) :
    alookup (dset (dset (TagService._update_meta u now td) "author" (.vstr u))
      "created" (.vnat now)) "name" = alookup td "name" := by
  rw [alookup_dset_ne _ _ _ _ (by decide), alookup_dset_ne _ _ _ _ (by decide)]
  exact update_meta_other u now td "name" (by decide) (by decide) (by decide)

theorem create_outcome (u : String) (td : Dict) (s : SvcState) :
    OutcomeIn (TagService.create u td s) [.conflict, .keyError "name"] := by
  unfold TagService.create
  cases hn : alookup td "name" with
  | some nv =>
    cases hf : alookup s.store.docs s.freshId with
    | none =>
      rw [audit_hist_ok (create_raw_ok u td s nv hf hn)]
      simp [OutcomeIn]
    | some sd =>
      have h : TagService.create_raw u td s = (.error .conflict, s) := by
        unfold TagService.create_raw
        simp only [dgetE, create_td2_updated, create_td3_name, hn, svcIndex, hf]
      rw [audit_hist_error h]
      simp [OutcomeIn]
  | none =>
    have h : TagService.create_raw u td s = (.error (.keyError "name"), s) := by
      unfold TagService.create_raw
      simp only [dgetE, create_td2_updated, create_td3_name, hn]
    rw [audit_hist_error h]
    simp [OutcomeIn]

theorem create_reference_outcome (u id : String) (seq : Nat) (payload : Dict)
    (s : SvcState) :
    OutcomeIn (TagService.create_reference u id seq payload s)
      [.notFound, .conflict, .attributeError "append"] := by
  unfold TagService.create_reference
  cases hf : alookup s.store.docs id with
  | none =>
    have h : TagService.create_reference_raw u id seq payload s = (.error .notFound, s) := by
      unfold TagService.create_reference_raw
      simp only [svcGet, hf]
    rw [audit_hist_error h]
    simp [OutcomeIn]
  | some sd =>
    cases hr : dgetDefault sd.body "references" (.vlist []) with
    | vlist refs =>
      by_cases hv : sd.version = seq
      · rw [audit_hist_ok (create_reference_raw_ok u id seq payload s sd refs hf hv hr)]
        simp [OutcomeIn]
      · have h : TagService.create_reference_raw u id seq payload s = (.error .conflict, s) := by
          unfold TagService.create_reference_raw
          simp only [svcGet, hf, dgetE_resp_source, hr, svcIndex, if_neg hv]
        rw [audit_hist_error h]
        simp [OutcomeIn]
    | vnone =>
      have h : TagService.create_reference_raw u id seq payload s
          = (.error (.attributeError "append"), s) := by
        unfold TagService.create_reference_raw
        simp only [svcGet, hf, dgetE_resp_source, hr]
      rw [audit_hist_error h]
      simp [OutcomeIn]
    | vstr a =>
      have h : TagService.create_reference_raw u id seq payload s
          = (.error (.attributeError "append"), s) := by
        unfold TagService.create_reference_raw
        simp only [svcGet, hf, dgetE_resp_source, hr]
      rw [audit_hist_error h]
      simp [OutcomeIn]
    | vnat n =>
      have h : TagService.create_reference_raw u id seq payload s
          = (.error (.attributeError "append"), s) := by
        unfold TagService.create_reference_raw
        simp only [svcGet, hf, dgetE_resp_source, hr]
      rw [audit_hist_error h]
      simp [OutcomeIn]
    | vtuple l =>
      have h : TagService.create_reference_raw u id seq payload s
          = (.error (.attributeError "append"), s) := by
        unfold TagService.create_reference_raw
        simp only [svcGet, hf, dgetE_resp_source, hr]
      rw [audit_hist_error h]
      simp [OutcomeIn]
    | vdict d =>
      have h : TagService.create_reference_raw u id seq payload s
          = (.error (.attributeError "append"), s) := by
        unfold TagService.create_reference_raw
        simp only [svcGet, hf, dgetE_resp_source, hr]
      rw [audit_hist_error h]
      simp [OutcomeIn]

theorem update_outcome (u id : String) (seq : Nat) (payload : Dict) (s : SvcState) :
    OutcomeIn (TagService.update u id seq payload s)
      [.notFound, .conflict, .valueError] := by
  unfold TagService.update
  cases hf : alookup s.store.docs id with
  | none =>
    have h : TagService.update_raw u id seq payload s = (.error .notFound, s) := by
      unfold TagService.update_raw
      simp only [svcGet, hf]
    rw [audit_hist_error h]
    simp [OutcomeIn]
  | some sd =>
    by_cases hv : sd.version = seq
    · rw [audit_hist_dict4 (u := u) (h := update_raw_ok u id seq payload s sd hf hv)]
      simp [OutcomeIn]
    · have h : TagService.update_raw u id seq payload s = (.error .conflict, s) := by
        unfold TagService.update_raw
        simp only [svcGet, hf, dgetE_resp_source, svcIndex, if_neg hv]
      rw [audit_hist_error h]
      simp [OutcomeIn]

theorem delete_outcome (u id : String) (seq : Nat) (s : SvcState) :
    OutcomeIn (TagService.delete u id seq s)
      [.notFound, .conflict, .keyError "name", .valueError] := by
  unfold TagService.delete
  cases hf : alookup s.store.docs id with
  | none =>
    have h : TagService.delete_raw u id seq s = (.error .notFound, s) := by
      unfold TagService.delete_raw
      simp only [svcGet, hf]
    rw [audit_hist_error h]
    simp [OutcomeIn]
  | some sd =>
    have hu : dgetE (TagService._update_meta u s.now sd.body) "updated"
        = .ok (.vnat s.now) := by
      simp [dgetE, update_meta_updated]
    by_cases hv : sd.version = seq
    · cases hn : alookup sd.body "name" with
      | some nv =>
        rw [audit_hist_dict4 (u := u) (h := delete_raw_ok u id seq s sd nv hf hv hn)]
        simp [OutcomeIn]
      | none =>
        subst hv
        have hn2 : dgetE (dset (TagService._update_meta u s.now sd.body) "deleted"
            (.vnat s.now)) "name" = .error (.keyError "name") := by
          rw [dgetE, alookup_dset_ne _ _ _ _ (by decide),
            update_meta_other u s.now sd.body "name" (by decide) (by decide) (by decide), hn]
        have h : TagService.delete_raw u id sd.version s =
            (.error (.keyError "name"),
             { s with store := ⟨dset s.store.docs id
                ⟨dset (TagService._update_meta u s.now sd.body) "deleted" (.vnat s.now),
                 sd.version + 1⟩⟩ }) := by
          unfold TagService.delete_raw
          simp only [svcGet, hf, dgetE_resp_source, hu, svcIndex, eq_self_iff_true,
            if_true, dgetE_resp_version, hn2]
        rw [audit_hist_error h]
        simp [OutcomeIn]
    · have h : TagService.delete_raw u id seq s = (.error .conflict, s) := by
        unfold TagService.delete_raw
        simp only [svcGet, hf, dgetE_resp_source, hu, svcIndex, if_neg hv]
      rw [audit_hist_error h]
      simp [OutcomeIn]

theorem filterRefs_error_mem (rid : String) (refs : List PyVal) (e : Err)
    (h : filterRefs rid refs = .error e) :
    e = .keyError "id" ∨ e = .typeError := by
  induction refs with
  | nil => simp [filterRefs] at h
  | cons a l ih =>
    cases a with
    | vdict d =>
      simp only [filterRefs] at h
      cases hid : alookup d "id" with
      | none =>
        simp only [dgetE, hid] at h
        exact Or.inl (Except.error.inj h).symm
      | some v =>
        simp only [dgetE, hid] at h
        cases hfl : filterRefs rid l with
        | error e2 =>
          rw [hfl] at h
          have he : e2 = e := Except.error.inj h
          subst he
          exact ih hfl
        | ok tl =>
          rw [hfl] at h
          simp at h
    | vnone => simp only [filterRefs] at h; exact Or.inr (Except.error.inj h).symm
    | vstr a => simp only [filterRefs] at h; exact Or.inr (Except.error.inj h).symm
    | vnat n => simp only [filterRefs] at h; exact Or.inr (Except.error.inj h).symm
    | vlist l2 => simp only [filterRefs] at h; exact Or.inr (Except.error.inj h).symm
    | vtuple l2 => simp only [filterRefs] at h; exact Or.inr (Except.error.inj h).symm

theorem delete_reference_outcome (u id rid : String) (seq : Nat) (s : SvcState) :
    OutcomeIn (TagService.delete_reference u id seq rid s)
      [.notFound, .conflict, .keyError "references", .keyError "id", .typeError] := by
  unfold TagService.delete_reference
  cases hf : alookup s.store.docs id with
  | none =>
    have h : TagService.delete_reference_raw u id seq rid s = (.error .notFound, s) := by
      unfold TagService.delete_reference_raw
      simp only [svcGet, hf]
    rw [audit_hist_error h]
    simp [OutcomeIn]
  | some sd =>
    cases hr : alookup sd.body "references" with
    | none =>
      rw [audit_hist_error (delete_reference_raw_absent u id rid seq s sd hf hr)]
      simp [OutcomeIn]
    | some refsv =>
      have hre : dgetE sd.body "references" = .ok refsv := by
        simp [dgetE, hr]
      by_cases ht : truthy refsv = true
      · cases refsv with
        | vlist refs =>
          cases hfl : filterRefs rid refs with
          | error e =>
            have h : TagService.delete_reference_raw u id seq rid s = (.error e, s) := by
              unfold TagService.delete_reference_raw
              simp only [svcGet, hf, dgetE_resp_source, hre, ht, if_true, hfl]
            rw [audit_hist_error h]
            rcases filterRefs_error_mem rid refs e hfl with he | he <;> subst he <;>
              simp [OutcomeIn]
          | ok kept =>
            by_cases hv : sd.version = seq
            · have hne : refs ≠ [] := by
                intro hnil
                subst hnil
                simp [truthy] at ht
              rw [audit_hist_ok
                (delete_reference_raw_ok u id rid seq s sd refs kept hf hv hr hne hfl)]
              simp [OutcomeIn]
            · have h : TagService.delete_reference_raw u id seq rid s
                  = (.error .conflict, s) := by
                unfold TagService.delete_reference_raw
                simp only [svcGet, hf, dgetE_resp_source, hre, ht, if_true, hfl,
                  svcIndex, if_neg hv]
              rw [audit_hist_error h]
              simp [OutcomeIn]
        | vnone => simp [truthy] at ht
        | vstr a =>
          have h : TagService.delete_reference_raw u id seq rid s
              = (.error .typeError, s) := by
            unfold TagService.delete_reference_raw
            simp only [svcGet, hf, dgetE_resp_source, hre, ht, if_true]
          rw [audit_hist_error h]
          simp [OutcomeIn]
        | vnat n =>
          have h : TagService.delete_reference_raw u id seq rid s
              = (.error .typeError, s) := by
            unfold TagService.delete_reference_raw
            simp only [svcGet, hf, dgetE_resp_source, hre, ht, if_true]
          rw [audit_hist_error h]
          simp [OutcomeIn]
        | vtuple l =>
          have h : TagService.delete_reference_raw u id seq rid s
              = (.error .typeError, s) := by
            unfold TagService.delete_reference_raw
            simp only [svcGet, hf, dgetE_resp_source, hre, ht, if_true]
          rw [audit_hist_error h]
          simp [OutcomeIn]
        | vdict d =>
          have h : TagService.delete_reference_raw u id seq rid s
              = (.error .typeError, s) := by
            unfold TagService.delete_reference_raw
            simp only [svcGet, hf, dgetE_resp_source, hre, ht, if_true]
          rw [audit_hist_error h]
          simp [OutcomeIn]
      · have h : TagService.delete_reference_raw u id seq rid s = (.error .notFound, s) := by
          unfold TagService.delete_reference_raw
          simp only [svcGet, hf, dgetE_resp_source, hre, if_neg ht]
        rw [audit_hist_error h]
        simp [OutcomeIn]

/-- C3 amended: each mutation either returns its documented success value or
raises a typed NotFound or Conflict — with these exceptions, all proven
exhaustive: `create` can raise an untyped KeyError when the payload has no
`name`; `delete` can raise KeyError when the stored document has no `name`;
`create_reference` can raise an untyped AttributeError when the stored
`references` value is not a list (`.append` on it has no such attribute);
`delete_reference` can raise KeyError when `references` is absent or a
reference lacks `id`, and TypeError when the references value is a truthy
non-list or an element is not a dict; and `update` and `delete` never return
their success value at all — on the success path the decorators raise an
untyped ValueError unpacking the dict the method returns.  ValidationFailure
is never raised by this module, and `count` and `list` are total functions
with no error channel. -/
theorem C3_amended_outcome_classification (u id rid : String) (seq : Nat)
    (payload td : Dict) (s : SvcState) :
    OutcomeIn (TagService.create u td s) [.conflict, .keyError "name"] ∧
    OutcomeIn (TagService.create_reference u id seq payload s)
      [.notFound, .conflict, .attributeError "append"] ∧
    OutcomeIn (TagService.update u id seq payload s)
      [.notFound, .conflict, .valueError] ∧
    OutcomeIn (TagService.delete u id seq s)
      [.notFound, .conflict, .keyError "name", .valueError] ∧
    OutcomeIn (TagService.delete_reference u id seq rid s)
      [.notFound, .conflict, .keyError "references", .keyError "id", .typeError] :=
  ⟨create_outcome u td s, create_reference_outcome u id seq payload s,
   update_outcome u id seq payload s, delete_outcome u id seq s,
   delete_reference_outcome u id rid seq s⟩
